import Mathlib

/-!
Verification development for a minimal CRUD todo service (`src/app.py`).

The service stores rows of a single table `todo_items(title PRIMARY KEY, done)`
and exposes three handlers: list (`get_list`), create (`add_item`) and update
(`update_item`).  We embed the table as a list of rows, the handlers as pure
functions returning `Except`, and the server as a state machine whose step
applies one handler (errors roll the transaction back, leaving the table
unchanged).
-/

namespace TodoApp

/-- A row of the `todo_items` table (class `TodoItem`, app.py lines 21-25):
`title` is the primary key, `done` the completion flag. -/
structure TodoItem where
  title : String
  done  : Bool
deriving DecidableEq, Repr

/-- The serialized JSON form of an item, a dict with keys `title` and `done`
(`TodoType` in app.py line 16, produced by `serialize_todo`). -/
structure TodoType where
  title : String
  done  : Bool
deriving DecidableEq, Repr

/-- The stored table `todo_items`. -/
abbrev Table := List TodoItem

/-- A request body dict.  The handlers access `data["title"]` and
`data["done"]`; a `none` field models a missing key, whose access raises
`KeyError`. -/
structure TodoData where
  titleKey : Option String
  doneKey  : Option Bool
deriving DecidableEq, Repr

/-- Errors a handler run can end in.  `notFound` models
`NotFoundException` (HTTP 404) and `conflict` models the `ClientException`
raised with `HTTP_409_CONFLICT` — the two structured responses.  `keyError`
(a missing body key), `multipleResults` (`scalar_one` on several rows) and
`integrityError` (a uniqueness violation not caught by the handler, as on a
rename collision in `update_item`) propagate unhandled as generic server
faults. -/
inductive AppError where
  | notFound (detail : String)
  | conflict (detail : String)
  | keyError (key : String)
  | multipleResults
  | integrityError
deriving DecidableEq, Repr

/-- Whether an error is one of the structured HTTP responses the handlers
construct (404 NotFound / 409 Conflict), as opposed to an unhandled fault. -/
def AppError.isStructured : AppError → Bool
  | .notFound _ => true
  | .conflict _ => true
  | _ => false

/-- Python `repr` of a string (the `!r` format used in the error messages),
for titles without quote or escape characters. -/
def pyRepr (s : String) : String := "\x27" ++ s ++ "\x27"

/-- app.py lines 68-69: `serialize_todo` turns a row into its
`{title, done}` dict. -/
def serialize_todo (todo : TodoItem) : TodoType :=
  { title := todo.title, done := todo.done }

/-- app.py lines 71-77: select rows whose `title` equals `todo_name` and take
`scalar_one()`: zero rows raise `NoResultFound`, caught and turned into
`NotFoundException` with detail naming the title; more than one row raises
`MultipleResultsFound`, which is not caught. -/
def get_todo_by_title (todo_name : String) (table : Table) : Except AppError TodoItem :=
  match table.filter (fun t => t.title == todo_name) with
  | [] => .error (.notFound ("TODO " ++ pyRepr todo_name ++ " not found"))
  | [t] => .ok t
  | _ :: _ :: _ => .error .multipleResults

/-- app.py lines 79-85: select all rows, adding a `done` equality filter when
the query parameter is present. -/
def get_todo_list (done : Option Bool) (table : Table) : List TodoItem :=
  match done with
  | none => table
  | some d => table.filter (fun t => t.done == d)

/-- app.py lines 87-90: the `GET /` handler serializes every row
`get_todo_list` returns. -/
def get_list (done : Option Bool) (table : Table) : List TodoType :=
  (get_todo_list done table).map serialize_todo

/-- app.py lines 92-105: the `POST /` handler.  `data["title"]` or
`data["done"]` missing raises `KeyError` before the session opens.  The
insert commits unless the primary-key constraint rejects a duplicate title,
in which case the transaction is rolled back and the caught `IntegrityError`
becomes a 409 `ClientException` naming the duplicate title.  On success the
new row is appended and the created item returned serialized. -/
def add_item (data : TodoData) (table : Table) : Except AppError (Table × TodoType) :=
  match data.titleKey with
  | none => .error (.keyError "title")
  | some title =>
    match data.doneKey with
    | none => .error (.keyError "done")
    | some done =>
      let new_todo : TodoItem := { title := title, done := done }
      if table.any (fun t => t.title == new_todo.title) then
        .error (.conflict ("TODO " ++ pyRepr new_todo.title ++ " already exists"))
      else
        .ok (table ++ [new_todo], serialize_todo new_todo)

/-- app.py lines 107-114: the `PUT /{item_title}` handler.  Inside one
transaction it looks the row up by the path title (404 when absent), then
assigns `data["title"]` and `data["done"]` onto the row — a missing key
raises `KeyError` inside the transaction, rolling it back.  Commit on scope
exit enforces the primary-key constraint: a new title equal to a DIFFERENT
existing row title raises `IntegrityError`, which the handler does not
catch, and the transaction is rolled back.  On success the row is
overwritten in place and the updated item returned serialized (after commit,
from the in-memory object, `expire_on_commit=False`). -/
def update_item (item_title : String) (data : TodoData) (table : Table) :
    Except AppError (Table × TodoType) :=
  match get_todo_by_title item_title table with
  | .error e => .error e
  | .ok _ =>
    match data.titleKey with
    | none => .error (.keyError "title")
    | some newTitle =>
      match data.doneKey with
      | none => .error (.keyError "done")
      | some newDone =>
        let updated : TodoItem := { title := newTitle, done := newDone }
        if table.any (fun t => t.title != item_title && t.title == newTitle) then
          .error .integrityError
        else
          .ok (table.map (fun t => if t.title == item_title then updated else t),
               serialize_todo updated)

/-- One client operation against the service: `GET /`, `POST /` or
`PUT /{item_title}`. -/
inductive Op where
  | listOp (done : Option Bool)
  | createOp (data : TodoData)
  | updateOp (item_title : String) (data : TodoData)

/-- The effect of one operation on the stored table.  List is read-only; a
create or update that errors has its transaction rolled back, so the table
is unchanged. -/
def step (table : Table) : Op → Table
  | .listOp _ => table
  | .createOp data =>
      match add_item data table with
      | .ok (t, _) => t
      | .error _ => table
  | .updateOp item_title data =>
      match update_item item_title data table with
      | .ok (t, _) => t
      | .error _ => table

/-- The table reached by a sequence of operations from the empty table (the
freshly created schema). -/
def run (ops : List Op) : Table := ops.foldl step []

/-- The uniqueness invariant: no two rows of the table share a title. -/
def titlesNodup (table : Table) : Prop := (table.map TodoItem.title).Nodup

/-- Control-flow outcome of the `db_connection` lifespan context manager
(app.py lines 30-64): the engine is created, then schema creation runs
(`engine.begin()` + `create_all`), and only then comes
`try: yield / finally: await engine.dispose()`.  An exception raised during
schema creation therefore propagates before the try/finally is entered and
`dispose` never runs; once the yield is reached, `dispose` runs exactly once
on both the normal and the exceptional exit. -/
structure LifespanRun where
  disposeCount : Nat
  raised : Bool
deriving DecidableEq, Repr

/-- Model of `db_connection` as a function of which stage fails:
`schema_creation_raises` — `create_all` raises during startup;
`app_body_raises` — the application raises while the manager is suspended at
`yield`. -/
def db_connection (schema_creation_raises : Bool) (app_body_raises : Bool) : LifespanRun :=
  if schema_creation_raises then
    { disposeCount := 0, raised := true }
  else
    { disposeCount := 1, raised := app_body_raises }

/-! ## Characterization lemmas for the handlers -/

/-- A successful `add_item` means both body keys were present, no stored row
already had the new title, the new row was appended, and the created item was
returned serialized. -/
theorem add_item_ok (data : TodoData) (table t1 : Table) (out : TodoType)
    (h : add_item data table = .ok (t1, out)) :
    ∃ T dflag, data.titleKey = some T ∧ data.doneKey = some dflag
      ∧ table.any (fun t => t.title == T) = false
      ∧ t1 = table ++ [{ title := T, done := dflag }]
      ∧ out = { title := T, done := dflag } := by
  unfold add_item at h
  cases hT : data.titleKey with
  | none => rw [hT] at h; exact absurd h (by simp)
  | some T =>
    rw [hT] at h
    cases hd : data.doneKey with
    | none => rw [hd] at h; exact absurd h (by simp)
    | some dflag =>
      rw [hd] at h
      dsimp only at h
      by_cases hc : table.any (fun t => t.title == T) = true
      · rw [if_pos hc] at h; exact absurd h (by simp)
      · rw [if_neg hc] at h
        refine ⟨T, dflag, rfl, rfl, Bool.eq_false_iff.mpr hc, ?_, ?_⟩
        · exact (Prod.mk.injEq _ _ _ _ ▸ Except.ok.inj h).1.symm
        · exact (Prod.mk.injEq _ _ _ _ ▸ Except.ok.inj h).2.symm

/-- A successful lookup returns a stored row whose title is the one looked
up. -/
theorem get_todo_by_title_ok (todo_name : String) (table : Table) (item : TodoItem)
    (h : get_todo_by_title todo_name table = .ok item) :
    item ∈ table ∧ item.title = todo_name := by
  unfold get_todo_by_title at h
  cases hf : table.filter (fun t => t.title == todo_name) with
  | nil => rw [hf] at h; exact absurd h (by simp)
  | cons t rest =>
    cases rest with
    | nil =>
      rw [hf] at h
      have ht : t = item := Except.ok.inj h
      subst ht
      have : t ∈ table.filter (fun t => t.title == todo_name) := by rw [hf]; exact List.mem_singleton.mpr rfl
      have := List.mem_filter.mp this
      exact ⟨this.1, by simpa using this.2⟩
    | cons t2 rest2 => rw [hf] at h; exact absurd h (by simp)

/-- A successful `update_item` means the path title was found, both body keys
were present, the new title collided with no other row, the found row was
overwritten in place, and the updated item was returned serialized. -/
theorem update_item_ok (item_title : String) (data : TodoData) (table t1 : Table) (out : TodoType)
    (h : update_item item_title data table = .ok (t1, out)) :
    ∃ item newTitle newDone,
      get_todo_by_title item_title table = .ok item
      ∧ data.titleKey = some newTitle ∧ data.doneKey = some newDone
      ∧ table.any (fun t => t.title != item_title && t.title == newTitle) = false
      ∧ t1 = table.map (fun t =>
          if t.title == item_title then { title := newTitle, done := newDone } else t)
      ∧ out = { title := newTitle, done := newDone } := by
  unfold update_item at h
  cases hg : get_todo_by_title item_title table with
  | error e => rw [hg] at h; exact absurd h (by simp)
  | ok item =>
    rw [hg] at h
    cases hT : data.titleKey with
    | none => rw [hT] at h; exact absurd h (by simp)
    | some newTitle =>
      rw [hT] at h
      cases hd : data.doneKey with
      | none => rw [hd] at h; exact absurd h (by simp)
      | some newDone =>
        rw [hd] at h
        dsimp only at h
        by_cases hc : table.any (fun t => t.title != item_title && t.title == newTitle) = true
        · rw [if_pos hc] at h; exact absurd h (by simp)
        · rw [if_neg hc] at h
          refine ⟨item, newTitle, newDone, rfl, rfl, rfl, Bool.eq_false_iff.mpr hc, ?_, ?_⟩
          · exact (Prod.mk.injEq _ _ _ _ ▸ Except.ok.inj h).1.symm
          · exact (Prod.mk.injEq _ _ _ _ ▸ Except.ok.inj h).2.symm

/-- Looking up a title that no stored row carries yields the 404 error whose
message names that title. -/
theorem get_todo_by_title_not_found (T : String) (table : Table)
    (h : ∀ t ∈ table, t.title ≠ T) :
    get_todo_by_title T table = .error (.notFound ("TODO " ++ pyRepr T ++ " not found")) := by
  have hf : table.filter (fun t => t.title == T) = [] := by
    rw [List.filter_eq_nil_iff]
    intro t ht
    simpa using h t ht
  unfold get_todo_by_title
  rw [hf]

/-! ## Claim theorems -/

/-- C3: for every title T not present in the table, `update_item` fails with
a NotFound error (HTTP 404) whose message names the missing title T, and the
stored table is unchanged afterwards — no row is created for T or for the
body title. -/
theorem update_not_found (table : Table) (T : String) (data : TodoData)
    (h : ∀ t ∈ table, t.title ≠ T) :
    update_item T data table
      = .error (.notFound ("TODO " ++ pyRepr T ++ " not found"))
    ∧ step table (.updateOp T data) = table := by
  have hg := get_todo_by_title_not_found T table h
  have h1 : update_item T data table
      = .error (.notFound ("TODO " ++ pyRepr T ++ " not found")) := by
    unfold update_item; rw [hg]
  exact ⟨h1, by simp only [step]; rw [h1]⟩

/-- Witness for C3 at the concrete missing title `"ghost"` on the empty
table. -/
theorem update_not_found_witness :
    update_item "ghost" { titleKey := some "g", doneKey := some true } []
      = .error (.notFound ("TODO " ++ pyRepr "ghost" ++ " not found"))
    ∧ step [] (.updateOp "ghost" { titleKey := some "g", doneKey := some true }) = [] :=
  update_not_found [] "ghost" { titleKey := some "g", doneKey := some true } (by simp)

/-- C4: `get_list` with filter `done=true` returns exactly the serialized
rows whose done field is true, with `done=false` exactly those whose done
field is false, and with no filter all stored rows (a permutation of the
union of the two); zero matches give the empty sequence, never an error. -/
theorem list_filter_correct (table : Table) :
    get_list (some true) table = (table.filter (fun t => t.done == true)).map serialize_todo
    ∧ get_list (some false) table = (table.filter (fun t => t.done == false)).map serialize_todo
    ∧ get_list none table = table.map serialize_todo
    ∧ (get_list none table).Perm (get_list (some true) table ++ get_list (some false) table)
    ∧ ∀ d : Option Bool, get_todo_list d table = [] → get_list d table = [] := by
  refine ⟨rfl, rfl, rfl, ?_, ?_⟩
  · show (table.map serialize_todo).Perm
        ((table.filter (fun t => t.done == true)).map serialize_todo
          ++ (table.filter (fun t => t.done == false)).map serialize_todo)
    rw [← List.map_append]
    refine List.Perm.map serialize_todo ?_
    have hfun : table.filter (fun t => t.done == false)
        = table.filter (fun t => !(t.done == true)) := by
      apply List.filter_congr
      intro t _
      cases t.done <;> rfl
    rw [hfun]
    exact (List.filter_append_perm _ table).symm
  · intro d hd
    unfold get_list
    rw [hd]
    rfl

/-- Witness for C4: the implication clause at a concrete table where the
`done=false` filter matches nothing. -/
theorem list_filter_correct_witness :
    get_list (some false) [{ title := "a", done := true }] = [] :=
  (list_filter_correct [{ title := "a", done := true }]).2.2.2.2 (some false) rfl

/-- C10: updating an existing row with a body that has the title key but no
done key fails with the KeyError inside the transaction, the transaction is
rolled back, and the stored table is unchanged — no partially updated row is
persisted. -/
theorem update_missing_done_atomic (table : Table) (item : TodoItem) (T Tp : String)
    (hfound : get_todo_by_title T table = .ok item) :
    update_item T { titleKey := some Tp, doneKey := none } table = .error (.keyError "done")
    ∧ step table (.updateOp T { titleKey := some Tp, doneKey := none }) = table := by
  constructor
  · unfold update_item; rw [hfound]
  · simp only [step]; unfold update_item; rw [hfound]

/-- Witness for C10 at the concrete stored row `("a", false)` and body
title `"b"`. -/
theorem update_missing_done_atomic_witness :
    update_item "a" { titleKey := some "b", doneKey := none } [{ title := "a", done := false }]
      = .error (.keyError "done")
    ∧ step [{ title := "a", done := false }]
        (.updateOp "a" { titleKey := some "b", doneKey := none })
      = [{ title := "a", done := false }] :=
  update_missing_done_atomic [{ title := "a", done := false }]
    { title := "a", done := false } "a" "b" (by rfl)

/-- C8 counterexample: when schema creation raises during startup, the
lifespan manager exits with the engine never disposed, so disposal does not
happen on every exit path of its scope. -/
theorem db_connection_startup_failure_no_dispose :
    (db_connection true false).disposeCount = 0 ∧ (db_connection true false).raised = true :=
  ⟨rfl, rfl⟩

/-- C8 amended: the engine is disposed exactly once on every exit path
reached after startup completes (normal shutdown or an exception raised
while suspended at the yield); when an exception occurs during startup
schema creation, before the try/finally is entered, the engine is not
disposed at all. -/
theorem db_connection_dispose_amended :
    (∀ b : Bool, (db_connection false b).disposeCount = 1)
    ∧ (∀ b : Bool, (db_connection true b).disposeCount = 0) :=
  ⟨fun _ => rfl, fun _ => rfl⟩

/-- C9: an update whose body title collides with a different existing row
title fails with the uncaught IntegrityError — a generic unhandled storage
fault, not one of the structured NotFound/Conflict responses — and the
transaction is rolled back with no retry, leaving the table unchanged. -/
theorem update_rename_collision (table : Table) (item u : TodoItem) (T Tp : String) (d : Bool)
    (hfound : get_todo_by_title T table = .ok item)
    (hu : u ∈ table) (huT : u.title = Tp) (hne : u.title ≠ T) :
    update_item T { titleKey := some Tp, doneKey := some d } table = .error .integrityError
    ∧ AppError.isStructured .integrityError = false
    ∧ step table (.updateOp T { titleKey := some Tp, doneKey := some d }) = table := by
  have hany : table.any (fun t => t.title != T && t.title == Tp) = true :=
    List.any_eq_true.mpr ⟨u, hu, by simp [huT]; exact huT ▸ hne⟩
  have hg : update_item T { titleKey := some Tp, doneKey := some d } table
      = .error .integrityError := by
    unfold update_item
    rw [hfound]
    dsimp only
    rw [if_pos hany]
  refine ⟨hg, rfl, ?_⟩
  simp only [step]
  rw [hg]

/-- Witness for C9: renaming `"a"` to `"b"` while a distinct row `"b"`
exists. -/
theorem update_rename_collision_witness :
    update_item "a" { titleKey := some "b", doneKey := some true }
        [{ title := "a", done := false }, { title := "b", done := true }]
      = .error .integrityError
    ∧ AppError.isStructured .integrityError = false
    ∧ step [{ title := "a", done := false }, { title := "b", done := true }]
        (.updateOp "a" { titleKey := some "b", doneKey := some true })
      = [{ title := "a", done := false }, { title := "b", done := true }] :=
  update_rename_collision _ { title := "a", done := false } { title := "b", done := true }
    "a" "b" true (by rfl) (by simp) (by simp) (by simp)

/-- C2: after a successful create of title T, a second create with title T
fails with the 409 Conflict error whose message identifies the duplicate
title, the insert is rolled back so the table is unchanged, and the original
row for T is still stored unmodified. -/
theorem create_then_create_conflict (table t1 : Table) (out : TodoType) (T : String) (d d' : Bool)
    (h : add_item { titleKey := some T, doneKey := some d } table = .ok (t1, out)) :
    add_item { titleKey := some T, doneKey := some d' } t1
      = .error (.conflict ("TODO " ++ pyRepr T ++ " already exists"))
    ∧ step t1 (.createOp { titleKey := some T, doneKey := some d' }) = t1
    ∧ t1.filter (fun t => t.title == T) = [{ title := T, done := d }] := by
  obtain ⟨T0, d0, hT0, hd0, hany, ht1, -⟩ := add_item_ok _ table t1 out h
  obtain rfl : T = T0 := Option.some.inj hT0
  obtain rfl : d = d0 := Option.some.inj hd0
  subst ht1
  have hany2 : (table ++ [({ title := T, done := d } : TodoItem)]).any
      (fun t => t.title == T) = true := by simp
  have hconflict : add_item { titleKey := some T, doneKey := some d' }
        (table ++ [({ title := T, done := d } : TodoItem)])
      = .error (.conflict ("TODO " ++ pyRepr T ++ " already exists")) := by
    unfold add_item
    dsimp only
    rw [if_pos hany2]
  refine ⟨hconflict, ?_, ?_⟩
  · simp only [step]; rw [hconflict]
  · have hnil : table.filter (fun t => t.title == T) = [] := by
      rw [List.filter_eq_nil_iff]
      intro t ht
      exact List.any_eq_false.mp hany t ht
    rw [List.filter_append, hnil]
    simp

/-- Witness for C2: creating `"a"` on the empty table, then creating `"a"`
again. -/
theorem create_then_create_conflict_witness :
    add_item { titleKey := some "a", doneKey := some false } [{ title := "a", done := true }]
      = .error (.conflict ("TODO " ++ pyRepr "a" ++ " already exists"))
    ∧ step [{ title := "a", done := true }]
        (.createOp { titleKey := some "a", doneKey := some false })
      = [{ title := "a", done := true }]
    ∧ ([{ title := "a", done := true }] : Table).filter (fun t => t.title == "a")
      = [{ title := "a", done := true }] :=
  create_then_create_conflict [] [{ title := "a", done := true }] { title := "a", done := true }
    "a" true false (by rfl)

/-- C5: after a successful create of an item, listing with no filter
contains exactly one object, equal to the created item, for that title. -/
theorem create_list_roundtrip (table t1 : Table) (out : TodoType) (T : String) (d : Bool)
    (h : add_item { titleKey := some T, doneKey := some d } table = .ok (t1, out)) :
    (get_list none t1).filter (fun o => o.title == T) = [{ title := T, done := d }] := by
  obtain ⟨T0, d0, hT0, hd0, hany, ht1, -⟩ := add_item_ok _ table t1 out h
  obtain rfl : T = T0 := Option.some.inj hT0
  obtain rfl : d = d0 := Option.some.inj hd0
  subst ht1
  show ((table ++ [({ title := T, done := d } : TodoItem)]).map serialize_todo).filter
      (fun o => o.title == T) = _
  rw [List.map_append, List.filter_append]
  have hnil : (table.map serialize_todo).filter (fun o => o.title == T) = [] := by
    rw [List.filter_eq_nil_iff]
    intro o ho
    obtain ⟨t, ht, rfl⟩ := List.mem_map.mp ho
    exact List.any_eq_false.mp hany t ht
  rw [hnil]
  simp [serialize_todo]

/-- Witness for C5: the round trip at the concrete item
`{title: "buy milk", done: false}` created on the empty table. -/
theorem create_list_roundtrip_witness :
    (get_list none [{ title := "buy milk", done := false }]).filter
        (fun o => o.title == "buy milk")
      = [{ title := "buy milk", done := false }] :=
  create_list_roundtrip [] [{ title := "buy milk", done := false }]
    { title := "buy milk", done := false } "buy milk" false (by rfl)

/-- C6: a successful update overwrites both the title and done fields of the
row found by the path title, in place within the one committed transaction,
and returns the serialized updated item reflecting the new field values. -/
theorem update_success (table : Table) (T Tp : String) (d : Bool) (item : TodoItem)
    (hfound : get_todo_by_title T table = .ok item)
    (hnocoll : ∀ t ∈ table, t.title = Tp → t.title = T) :
    update_item T { titleKey := some Tp, doneKey := some d } table =
      .ok (table.map (fun t => if t.title == T then { title := Tp, done := d } else t),
           { title := Tp, done := d })
    ∧ ({ title := Tp, done := d } : TodoItem)
        ∈ table.map (fun t => if t.title == T then { title := Tp, done := d } else t) := by
  have hany : table.any (fun t => t.title != T && t.title == Tp) = false := by
    rw [List.any_eq_false]
    intro t ht
    simp only [Bool.and_eq_true, bne_iff_ne, beq_iff_eq]
    rintro ⟨hne, htp⟩
    exact hne (hnocoll t ht htp)
  have heq : update_item T { titleKey := some Tp, doneKey := some d } table
      = .ok (table.map (fun t => if t.title == T then { title := Tp, done := d } else t),
             { title := Tp, done := d }) := by
    unfold update_item
    rw [hfound]
    dsimp only
    rw [if_neg (by simp [hany])]
    rfl
  obtain ⟨hmem, htit⟩ := get_todo_by_title_ok T table item hfound
  refine ⟨heq, List.mem_map.mpr ⟨item, hmem, ?_⟩⟩
  simp [htit]

/-- Witness for C6: renaming the stored row `("a", false)` to
`("b", true)`. -/
theorem update_success_witness :
    update_item "a" { titleKey := some "b", doneKey := some true }
        [{ title := "a", done := false }]
      = .ok (([{ title := "a", done := false }] : Table).map
            (fun t => if t.title == "a" then { title := "b", done := true } else t),
          { title := "b", done := true })
    ∧ ({ title := "b", done := true } : TodoItem)
        ∈ ([{ title := "a", done := false }] : Table).map
            (fun t => if t.title == "a" then { title := "b", done := true } else t) :=
  update_success [{ title := "a", done := false }] "a" "b" true { title := "a", done := false }
    (by rfl) (by decide)

/-- Rewriting a title that occurs on no row of the list leaves the list
unchanged. -/
theorem map_update_id_of_nomatch (T : String) (upd : TodoItem) :
    ∀ (l : Table), (∀ t ∈ l, ¬((t.title == T) = true)) →
      l.map (fun t => if t.title == T then upd else t) = l
  | [], _ => rfl
  | a :: rest, h => by
      rw [List.map_cons, if_neg (h a (List.mem_cons_self a rest)),
        map_update_id_of_nomatch T upd rest (fun t ht => h t (List.mem_cons_of_mem a ht))]

/-- Overwriting the unique row for a title with its own current values
leaves the list unchanged. -/
theorem map_update_self (T : String) (d : Bool) :
    ∀ (l : Table), l.filter (fun t => t.title == T) = [{ title := T, done := d }] →
      l.map (fun t => if t.title == T then { title := T, done := d } else t) = l
  | [], h => by simp at h
  | a :: rest, h => by
      by_cases ha : (a.title == T) = true
      · rw [List.filter_cons, if_pos ha] at h
        injection h with h1 h2
        rw [List.map_cons, if_pos ha, ← h1,
          map_update_id_of_nomatch T a rest (List.filter_eq_nil_iff.mp h2)]
      · rw [List.filter_cons, if_neg ha] at h
        rw [List.map_cons, if_neg ha, map_update_self T d rest h]

/-- C7: updating an existing item with its current values succeeds and
leaves the entire stored table unchanged, returning the item itself. -/
theorem update_idempotent (table : Table) (T : String) (d : Bool)
    (h : table.filter (fun t => t.title == T) = [{ title := T, done := d }]) :
    update_item T { titleKey := some T, doneKey := some d } table
      = .ok (table, { title := T, done := d }) := by
  have hg : get_todo_by_title T table = .ok { title := T, done := d } := by
    unfold get_todo_by_title
    rw [h]
  have hany : table.any (fun t => t.title != T && t.title == T) = false := by
    rw [List.any_eq_false]
    intro t ht
    simp [bne]
  have hmap := map_update_self T d table h
  unfold update_item
  rw [hg]
  dsimp only
  rw [if_neg (by simp [hany]), hmap]
  rfl

/-- Witness for C7 at the concrete stored row `("a", true)`. -/
theorem update_idempotent_witness :
    update_item "a" { titleKey := some "a", doneKey := some true }
        [{ title := "a", done := true }]
      = .ok ([{ title := "a", done := true }], { title := "a", done := true }) :=
  update_idempotent [{ title := "a", done := true }] "a" true (by rfl)

/-! ## The uniqueness invariant over reachable states (C1) -/

/-- Renaming a string absent from the list is the identity on the list. -/
theorem map_rename_id (x y : String) :
    ∀ (l : List String), x ∉ l → l.map (fun s => if s = x then y else s) = l
  | [], _ => rfl
  | a :: rest, h => by
      rw [List.map_cons,
        if_neg (fun hax => h (by rw [← hax]; exact List.mem_cons_self a rest)),
        map_rename_id x y rest (fun hx => h (List.mem_cons_of_mem a hx))]

/-- Renaming `x` to `y` preserves freedom from duplicates when `y` can occur
in the list only as `x` itself. -/
theorem nodup_map_rename (x y : String) :
    ∀ (l : List String), l.Nodup → (y ∈ l → y = x) →
      (l.map (fun s => if s = x then y else s)).Nodup
  | [], _, _ => List.nodup_nil
  | a :: rest, h, hy => by
      rw [List.nodup_cons] at h
      obtain ⟨hnotin, hrest⟩ := h
      rw [List.map_cons, List.nodup_cons]
      by_cases hax : a = x
      · subst hax
        rw [if_pos rfl, map_rename_id a y rest hnotin]
        refine ⟨fun hyr => ?_, hrest⟩
        have hya : y = a := hy (List.mem_cons_of_mem a hyr)
        exact hnotin (hya ▸ hyr)
      · rw [if_neg hax]
        have hy' : y ∈ rest → y = x := fun hyr => hy (List.mem_cons_of_mem a hyr)
        refine ⟨fun hmem => ?_, nodup_map_rename x y rest hrest hy'⟩
        obtain ⟨s, hs, hseq⟩ := List.mem_map.mp hmem
        by_cases hsx : s = x
        · rw [if_pos hsx] at hseq
          exact hax (hseq.symm.trans (hy (by rw [hseq]; exact List.mem_cons_self a rest)))
        · rw [if_neg hsx] at hseq
          exact hnotin (hseq ▸ hs)

/-- The titles of a table after an in-place update are the titles of the
table with the path title renamed to the body title. -/
theorem titles_after_update (x y : String) (d : Bool) (l : Table) :
    ((l.map (fun t => if t.title == x then ({ title := y, done := d } : TodoItem) else t)).map
        TodoItem.title)
      = (l.map TodoItem.title).map (fun s => if s = x then y else s) := by
  rw [List.map_map, List.map_map]
  apply List.map_congr_left
  intro t _
  by_cases h : t.title = x
  · simp [Function.comp, h]
  · simp [Function.comp, h]

/-- Each operation preserves the title-uniqueness invariant: a create only
appends a fresh title, and an update only commits when the new title
collides with no other row. -/
theorem step_preserves_nodup (table : Table) (op : Op) (h : titlesNodup table) :
    titlesNodup (step table op) := by
  cases op with
  | listOp d => exact h
  | createOp data =>
      simp only [step]
      cases hres : add_item data table with
      | error e => exact h
      | ok p =>
          obtain ⟨t1, out⟩ := p
          obtain ⟨T, dflag, -, -, hany, ht1, -⟩ := add_item_ok data table t1 out hres
          subst ht1
          show titlesNodup (table ++ [{ title := T, done := dflag }])
          unfold titlesNodup at h ⊢
          rw [List.map_append, List.nodup_append]
          refine ⟨h, List.nodup_singleton _, fun s hs hsT => ?_⟩
          obtain ⟨t, ht, htt⟩ := List.mem_map.mp hs
          have hT : s = T := by simpa using hsT
          apply List.any_eq_false.mp hany t ht
          rw [beq_iff_eq, htt, hT]
  | updateOp item_title data =>
      simp only [step]
      cases hres : update_item item_title data table with
      | error e => exact h
      | ok p =>
          obtain ⟨t1, out⟩ := p
          obtain ⟨item, newTitle, newDone, hfound, -, -, hany, ht1, -⟩ :=
            update_item_ok item_title data table t1 out hres
          subst ht1
          show titlesNodup (table.map (fun t =>
            if t.title == item_title then { title := newTitle, done := newDone } else t))
          unfold titlesNodup at h ⊢
          rw [titles_after_update]
          apply nodup_map_rename item_title newTitle _ h
          intro hmem
          obtain ⟨t, ht, htt⟩ := List.mem_map.mp hmem
          by_contra hne
          apply List.any_eq_false.mp hany t ht
          rw [Bool.and_eq_true]
          exact ⟨by rw [bne_iff_ne, htt]; exact hne, by rw [beq_iff_eq]; exact htt⟩

/-- Folding any operation sequence over a duplicate-free table keeps it
duplicate-free. -/
theorem foldl_step_nodup (ops : List Op) :
    ∀ (table : Table), titlesNodup table → titlesNodup (ops.foldl step table) := by
  induction ops with
  | nil => intro table h; exact h
  | cons op rest ih =>
      intro table h
      rw [List.foldl_cons]
      exact ih (step table op) (step_preserves_nodup table op h)

/-- Every reachable table satisfies the uniqueness invariant. -/
theorem run_nodup (ops : List Op) : titlesNodup (run ops) :=
  foldl_step_nodup ops [] (by simp [titlesNodup])

/-- On a duplicate-free table, an exact-equality lookup by title matches at
most one row. -/
theorem filter_title_length_le_one :
    ∀ (l : Table), titlesNodup l → ∀ (s : String),
      (l.filter (fun t => t.title == s)).length ≤ 1
  | [], _, _ => by simp
  | a :: rest, h, s => by
      unfold titlesNodup at h
      rw [List.map_cons, List.nodup_cons] at h
      obtain ⟨hnotin, hrest⟩ := h
      rw [List.filter_cons]
      by_cases ha : (a.title == s) = true
      · have hnil : rest.filter (fun t => t.title == s) = [] := by
          rw [List.filter_eq_nil_iff]
          intro t ht htbeq
          apply hnotin
          have h1 : t.title = s := by rwa [beq_iff_eq] at htbeq
          have h2 : a.title = s := by rwa [beq_iff_eq] at ha
          rw [h2, ← h1]
          exact List.mem_map.mpr ⟨t, ht, rfl⟩
        rw [if_pos ha, hnil]
        simp
      · rw [if_neg ha]
        exact filter_title_length_le_one rest hrest s

/-- C1: title uniqueness is an invariant of the stored table — for every
state reachable by a sequence of list, create and update operations from
the empty table, no two rows share a title, and a lookup by title never
matches more than one row. -/
theorem reachable_titles_unique (ops : List Op) :
    titlesNodup (run ops)
    ∧ ∀ s : String, ((run ops).filter (fun t => t.title == s)).length ≤ 1 :=
  ⟨run_nodup ops, fun s => filter_title_length_le_one (run ops) (run_nodup ops) s⟩

end TodoApp
